import Mathlib

set_option maxRecDepth 16000

/-!
Verification of the secure-chat server core against its specification.

The definitions below are a shallow embedding of the Go source:

* `VerifyEd25519`                — src/backend_new/internal/utils/crypto.go
* `Store`, `ConsumeOneTimePreKey`, `StoreSignedPreKey`, `AddOneTimePreKeys`
                                 — src/backend_new/internal/db/db.go (PreKeyService)
* `PreKeysUploadHandler`         — src/backend_new/internal/api/handlers.go
* `GetKeyBundleHandler`          — src/backend_new/internal/api/match.go
* `Hub.Register`, `Hub.Unregister`, `Hub.SendTo`, `Hub.IsOnline`
                                 — src/unnamed/part_009 (services.Hub)
* `Matchmaker.Enqueue`, `Matchmaker.tryMatch`, `Matchmaker.cleanupWaiting`,
  `Matchmaker.GetPair`, `Matchmaker.RemovePair`
                                 — src/unnamed/part_001 (services.Matchmaker)

Modelling conventions: UUIDs are `Nat`; timestamps are `Nat` seconds;
byte strings are `List Nat`; a base64-decoded request field is
`Option (List Nat)` (`none` = decode failure); the external
`ed25519.Verify` library call is an abstract oracle parameter; Go channels
are lists holding the buffered contents; `go h.Unregister(...)` is modelled
as running to completion.  Go map assignment/lookup/delete are modelled by
association lists with first-match lookup.
-/

namespace SecureChat

/-- Embedding of `VerifyEd25519` (utils/crypto.go).  `ed` abstracts the
`ed25519.Verify` library call, taking public key, message and signature.
The Go code returns false when the public key is not 32 bytes or the
signature is not 64 bytes, and otherwise defers to the library; the
message (pre-key) length is never inspected.  The function is total, so
it never throws. -/
def VerifyEd25519 (ed : List Nat → List Nat → List Nat → Bool)
    (pub message sig : List Nat) : Bool :=
  if pub.length ≠ 32 then false
  else if sig.length ≠ 64 then false
  else ed pub message sig

/-- Modelled from the spec: the spec's contract for `verify_signed_prekey`
(§4.2), which additionally demands that the pre-key public bytes be exactly
32 bytes.  Used only as a comparison point for the refinement claim about
`VerifyEd25519`. -/
def verify_signed_prekey (ed : List Nat → List Nat → List Nat → Bool)
    (identityPub prekeyPub signature : List Nat) : Bool :=
  (identityPub.length == 32) && (signature.length == 64) &&
    (prekeyPub.length == 32) && ed identityPub prekeyPub signature

/-! ### Credential store rows (internal/models, as used by the handlers) -/

/-- A row of the `users` table (models.User): id, unique identifier, and the
bound identity public key. -/
structure User where
  id : Nat
  identifier : String
  identityPubKey : List Nat
deriving DecidableEq, Repr

/-- A row of the signed pre-key table (models.PreKey). -/
structure PreKeyRow where
  userId : Nat
  keyId : String
  preKey : List Nat
  signature : List Nat
  expiresAt : Nat
  createdAt : Nat
deriving DecidableEq, Repr

/-- A row of the one-time pre-key table (models.OneTimePreKey). -/
structure OneTimePreKey where
  id : Nat
  userId : Nat
  preKey : List Nat
  used : Bool
  createdAt : Nat
deriving DecidableEq, Repr

/-- A row of the devices table (models.Device). -/
structure Device where
  id : Nat
  userId : Nat
  deviceId : String
  devicePubKey : List Nat
deriving DecidableEq, Repr

/-- The relational store as seen by the embedded handlers.  `nextId`
models the supply of fresh UUIDs. -/
structure Store where
  users : List User
  prekeys : List PreKeyRow
  oneTimePreKeys : List OneTimePreKey
  devices : List Device
  nextId : Nat
deriving DecidableEq, Repr

/-- Outcome of a gorm call at the store boundary.  `recordNotFound` is
`gorm.ErrRecordNotFound`; `storeFailure` stands for any other backing-store
error. -/
inductive DBErr where
  | recordNotFound
  | storeFailure (code : Nat)
deriving DecidableEq, Repr

/-- Embedding of the unconditional
`DB.Model(&User{}).Where("id = ?", userID).Updates({"identity_pub_key": k})`
call in PreKeysUploadHandler (handlers.go line 166): every user row matching
the id gets its identity key overwritten; the call's error is discarded by
the Go code. -/
def Store.updateIdentityKey (s : Store) (uid : Nat) (k : List Nat) : Store :=
  { s with users := s.users.map fun u =>
      if u.id = uid then { u with identityPubKey := k } else u }

/-- Embedding of `PreKeyService.StoreSignedPreKey`: append a fresh signed
pre-key row. -/
def StoreSignedPreKey (s : Store) (uid : Nat) (keyId : String)
    (prekey signature : List Nat) (expires now : Nat) : Store :=
  { s with
    prekeys := s.prekeys ++
      [{ userId := uid, keyId := keyId, preKey := prekey,
         signature := signature, expiresAt := expires, createdAt := now }] }

/-- Embedding of `PreKeyService.AddOneTimePreKeys`: append one unused row per
key, drawing fresh ids from the counter. -/
def AddOneTimePreKeys (s : Store) (uid : Nat) (keys : List (List Nat))
    (now : Nat) : Store :=
  { s with
    oneTimePreKeys := s.oneTimePreKeys ++
      (((List.range keys.length).zip keys).map fun p =>
        { id := s.nextId + p.1, userId := uid, preKey := p.2,
          used := false, createdAt := now }),
    nextId := s.nextId + keys.length }

/-- Between a candidate row and the best row of the remainder (if any),
the one with the strictly smaller `created_at` (the earlier-listed row wins
a tie). -/
def minByCreated (r : OneTimePreKey) : Option OneTimePreKey → OneTimePreKey
  | none => r
  | some b => if b.createdAt < r.createdAt then b else r

/-- The row selected by
`Where("user_id = ? AND used = false").Order("created_at asc").First`:
the unused row of the user with the least `created_at` (first listed wins a
tie). -/
def oldestUnused (uid : Nat) : List OneTimePreKey → Option OneTimePreKey
  | [] => none
  | r :: rs =>
    if r.userId = uid ∧ r.used = false then
      some (minByCreated r (oldestUnused uid rs))
    else oldestUnused uid rs

/-- Mark the row with primary key `rid` as used (`tx.Save(&p)` writes by
primary key). -/
def markUsed : List OneTimePreKey → Nat → List OneTimePreKey
  | [], _ => []
  | r :: rs, rid =>
    (if r.id = rid then { r with used := true } else r) :: markUsed rs rid

/-- The rows whose primary key differs from `pid`. -/
def dropId (pid : Nat) : List OneTimePreKey → List OneTimePreKey
  | [] => []
  | r :: rs => if r.id = pid then dropId pid rs else r :: dropId pid rs

/-- Embedding of `PreKeyService.ConsumeOneTimePreKey`: inside a transaction,
select the oldest unused row of the user with a write lock; if none, roll
back and surface the store's not-found error; otherwise set `used = true`,
save, commit, and return the (now used) row. -/
def ConsumeOneTimePreKey (s : Store) (uid : Nat) :
    Except DBErr OneTimePreKey × Store :=
  match oldestUnused uid s.oneTimePreKeys with
  | none => (Except.error DBErr.recordNotFound, s)
  | some p =>
    (Except.ok { p with used := true },
     { s with oneTimePreKeys := markUsed s.oneTimePreKeys p.id })

/-- The unused one-time pre-key rows of a user among the given rows, in
table order. -/
def unusedOf (uid : Nat) : List OneTimePreKey → List OneTimePreKey
  | [] => []
  | r :: rs =>
    if r.userId = uid ∧ r.used = false then r :: unusedOf uid rs
    else unusedOf uid rs

/-- The unused one-time pre-key rows of a user, in table order. -/
def unusedRows (uid : Nat) (s : Store) : List OneTimePreKey :=
  unusedOf uid s.oneTimePreKeys

/-! ### The pre-key upload handler (internal/api/handlers.go) -/

/-- The JSON body of POST /api/keys/prekeys/upload after parsing.  Each
opaque field holds the result of `base64.StdEncoding.DecodeString`
(`none` = decode failure). -/
structure UploadPayload where
  identityPub : Option (List Nat)
  signingPub : Option (List Nat)
  signedPreKey : Option (List Nat)
  signedPreKeySig : Option (List Nat)
  oneTimePreKeys : List (Option (List Nat))
  deviceId : String
  devicePubKey : Option (List Nat)
deriving DecidableEq, Repr

/-- The HTTP outcome of the upload handler.  `badRequest` carries the JSON
error message the Go code sends with status 400. -/
inductive UploadResponse where
  | ok
  | badRequest (msg : String)
deriving DecidableEq, Repr

/-- Embedding of `PreKeysUploadHandler` (handlers.go lines 137-219), the
current plaintext variant; the RSA variant in src/unnamed/part_004 performs
the identical steps after a decrypt.  Note the order taken from the source:
the identity key is rebound (line 166) after only the identity/signing
length checks and before the signature fields are even decoded; the
device_pubkey decode happens after the pre-key inserts.  Store-layer errors
of the pure model never fire, so the 500 branches of the Go code are
unreachable here; `go`-style concurrency does not arise. -/
def PreKeysUploadHandler (ed : List Nat → List Nat → List Nat → Bool)
    (userID now : Nat) (p : UploadPayload) (s : Store) :
    UploadResponse × Store :=
  match p.identityPub with
  | none => (UploadResponse.badRequest ("invalid identity_pub"), s)
  | some identityPub =>
    if identityPub.length ≠ 32 then
      (UploadResponse.badRequest ("invalid identity_pub"), s)
    else match p.signingPub with
    | none => (UploadResponse.badRequest ("invalid signing_pub"), s)
    | some signingPub =>
      if signingPub.length ≠ 32 then
        (UploadResponse.badRequest ("invalid signing_pub"), s)
      else
        let s1 := s.updateIdentityKey userID identityPub
        match p.signedPreKeySig with
        | none => (UploadResponse.badRequest ("invalid signature"), s1)
        | some sigBytes =>
          match p.signedPreKey with
          | none => (UploadResponse.badRequest ("invalid signed_prekey"), s1)
          | some spkBytes =>
            if VerifyEd25519 ed signingPub spkBytes sigBytes = false then
              (UploadResponse.badRequest ("signature verification failed"), s1)
            else
              let s2 := StoreSignedPreKey s1 userID ("signed-prekey-v1")
                spkBytes sigBytes (now + 30 * 24 * 3600) now
              let otps := p.oneTimePreKeys.filterMap id
              let s3 := AddOneTimePreKeys s2 userID otps now
              match p.devicePubKey with
              | none => (UploadResponse.badRequest ("invalid device_pubkey"), s3)
              | some devPub =>
                let s4 := { s3 with
                  devices := s3.devices ++
                    [{ id := s3.nextId, userId := userID,
                       deviceId := p.deviceId, devicePubKey := devPub }],
                  nextId := s3.nextId + 1 }
                (UploadResponse.ok, s4)

/-! ### The bundle fetch handler (internal/api/match.go) -/

/-- The latest signed pre-key:
`Where("user_id = ?").Order("created_at desc").First` — the user's row with
the greatest `created_at` (first listed wins a tie). -/
def latestPreKey (uid : Nat) : List PreKeyRow → Option PreKeyRow
  | [] => none
  | r :: rs =>
    let rest := latestPreKey uid rs
    if r.userId = uid then
      match rest with
      | none => some r
      | some b => if r.createdAt < b.createdAt then some b else some r
    else rest

/-- The JSON body of a successful bundle fetch.  Every field below is a key
the Go code always places in the `fiber.Map`; in particular `oneTimePrekey`
models the `one_time_prekey` key, whose value is the consumed key bytes or
the empty string — `some []` encodes the empty string, the key being present
either way; `none` would mean the key is absent from the JSON object, which
the code never produces. -/
structure BundleResponse where
  userId : Nat
  identityPub : List Nat
  signedPrekey : List Nat
  signedPrekeySig : List Nat
  oneTimePrekey : Option (List Nat)
  devices : List (String × List Nat)
deriving DecidableEq, Repr

/-- The HTTP outcome of the bundle fetch handler. -/
inductive BundleResult where
  | ok (body : BundleResponse)
  | notFound (msg : String)
deriving DecidableEq, Repr

/-- Embedding of `GetKeyBundleHandler` (match.go lines 69-132), with the
one-time-pre-key consumption step left as a parameter so the handler's
treatment of every possible outcome of that store call can be stated.  The
Go code ignores the step's error entirely: `if err == nil && oneTimeKey !=
nil` sets the base64 string, otherwise the string stays empty and the
response is still a 200. -/
def GetKeyBundleWith
    (consumeStep : Store → Nat → Except DBErr OneTimePreKey × Store)
    (s : Store) (target : Nat) : BundleResult × Store :=
  match s.users.find? (fun u => u.id == target) with
  | none => (BundleResult.notFound ("user not found"), s)
  | some user =>
    match latestPreKey target s.prekeys with
    | none => (BundleResult.notFound ("no prekey found"), s)
    | some prekey =>
      let res := consumeStep s target
      let oneTimeKeyB64 : Option (List Nat) :=
        match res.1 with
        | Except.ok r => some r.preKey
        | Except.error _ => some []
      (BundleResult.ok
        { userId := user.id
          identityPub := user.identityPubKey
          signedPrekey := prekey.preKey
          signedPrekeySig := prekey.signature
          oneTimePrekey := oneTimeKeyB64
          devices := (res.2.devices.filter (fun d => d.userId == target)).map
            fun d => (d.deviceId, d.devicePubKey) },
       res.2)

/-- The bundle fetch handler as the source composes it, with the real
consumption step. -/
def GetKeyBundleHandler (s : Store) (target : Nat) : BundleResult × Store :=
  GetKeyBundleWith ConsumeOneTimePreKey s target

/-! ### Association-list maps (Go `map` semantics) -/

/-- Go map lookup: the value of the first entry whose key matches. -/
def mapLookup (k : Nat) : List (Nat × Nat) → Option Nat
  | [] => none
  | p :: ps => if p.1 = k then some p.2 else mapLookup k ps

/-- Go map delete: drop every entry with the key. -/
def mapErase (k : Nat) : List (Nat × Nat) → List (Nat × Nat)
  | [] => []
  | p :: ps => if p.1 = k then mapErase k ps else p :: mapErase k ps

/-- Go map assignment `m[k] = v`. -/
def mapInsert (k v : Nat) (l : List (Nat × Nat)) : List (Nat × Nat) :=
  (k, v) :: mapErase k l

/-! ### The connection hub (src/unnamed/part_009, services.Hub) -/

/-- A live connection (services.Connection).  `connId` models the identity
of the Go value (its `Send` channel); `send` holds the channel's buffered
envelopes.  The only construction site, `WebSocketHandler`, makes the
channel with capacity 256. -/
structure Connection where
  connId : Nat
  userId : Nat
  deviceId : String
  send : List (List Nat)
deriving DecidableEq, Repr

/-- The outbound channel capacity: `make(chan []byte, 256)` in
internal/api/websocket.go. -/
def sendCap : Nat := 256

/-- The hub's state: the `connections` map plus the set of connection ids
whose `Send` channel has been closed (`close(c.Send)` happens only in
`Unregister`). -/
structure Hub where
  connections : List (Nat × Connection)
  closed : List Nat
deriving DecidableEq, Repr

/-- Go map lookup on a connection table: the value of the first entry whose
key matches. -/
def connLookup (uid : Nat) : List (Nat × Connection) → Option Connection
  | [] => none
  | p :: ps => if p.1 = uid then some p.2 else connLookup uid ps

/-- Go map delete on a connection table: drop every entry with the key. -/
def connErase (k : Nat) : List (Nat × Connection) → List (Nat × Connection)
  | [] => []
  | p :: ps => if p.1 = k then connErase k ps else p :: connErase k ps

/-- Go map lookup on `connections`. -/
def Hub.lookup (h : Hub) (uid : Nat) : Option Connection :=
  connLookup uid h.connections

/-- Embedding of `Hub.Register` (part_009 lines 30-34): a bare map
assignment `h.connections[c.UserID] = c`.  Nothing is closed and nothing
else changes. -/
def Hub.Register (h : Hub) (c : Connection) : Hub :=
  { h with connections := (c.userId, c) :: connErase c.userId h.connections }

/-- Embedding of `Hub.Unregister`: if a connection is registered under the
id, close its `Send` channel and delete the entry. -/
def Hub.Unregister (h : Hub) (uid : Nat) : Hub :=
  match h.lookup uid with
  | none => h
  | some c =>
    { connections := connErase uid h.connections
      closed := c.connId :: h.closed }

/-- Embedding of `Hub.SendTo` (part_009 lines 45-59): look the recipient
up; absent → false; room in the buffered channel → enqueue and true;
full → `go h.Unregister(userID)` (modelled as having completed) and
false. -/
def Hub.SendTo (h : Hub) (uid : Nat) (payload : List Nat) : Bool × Hub :=
  match h.lookup uid with
  | none => (false, h)
  | some c =>
    if c.send.length < sendCap then
      (true,
       { h with connections := h.connections.map fun p =>
           if p.1 = uid then (p.1, { p.2 with send := p.2.send ++ [payload] })
           else p })
    else
      (false, h.Unregister uid)

/-- Embedding of `Hub.IsOnline`. -/
def Hub.IsOnline (h : Hub) (uid : Nat) : Bool :=
  (h.lookup uid).isSome

/-! ### The matchmaker (src/unnamed/part_001, services.Matchmaker) -/

/-- The matchmaker's shared state: the buffered admission channel
(capacity 1000), the `pairing` map, and the `waiting` map
(user → enqueue time). -/
structure Matchmaker where
  queue : List Nat
  pairing : List (Nat × Nat)
  waiting : List (Nat × Nat)
deriving DecidableEq, Repr

/-- `make(chan uuid.UUID, 1000)` in NewMatchmaker. -/
def queueCap : Nat := 1000

/-- The fresh matchmaker built by `NewMatchmaker`. -/
def Matchmaker.init : Matchmaker := { queue := [], pairing := [], waiting := [] }

/-- Result of `Matchmaker.Enqueue`; the Go code returns
`context.DeadlineExceeded` when the channel's send would block. -/
inductive EnqueueResult where
  | ok
  | queueFull
deriving DecidableEq, Repr

/-- Embedding of `Matchmaker.Enqueue` (part_001 lines 30-40): non-blocking
channel send; on success also record the enqueue time in `waiting`. -/
def Matchmaker.Enqueue (m : Matchmaker) (uid now : Nat) :
    EnqueueResult × Matchmaker :=
  if m.queue.length < queueCap then
    (EnqueueResult.ok,
     { m with queue := m.queue ++ [uid], waiting := mapInsert uid now m.waiting })
  else
    (EnqueueResult.queueFull, m)

/-- Embedding of `Matchmaker.tryMatch` (part_001 lines 59-94): dequeue up
to two users; with fewer than two, requeue the one taken (the requeue's
drop-if-full default branch is unreachable sequentially, since a slot was
just freed); with two, write `pairing[uid1] = uid2` then
`pairing[uid2] = uid1` and delete both from `waiting`. -/
def Matchmaker.tryMatch (m : Matchmaker) : Matchmaker :=
  match m.queue with
  | [] => m
  | [a] => { m with queue := [a] }
  | a :: b :: rest =>
    { m with
      queue := rest
      pairing := mapInsert b a (mapInsert a b m.pairing)
      waiting := mapErase b (mapErase a m.waiting) }

/-- Embedding of `Matchmaker.cleanupWaiting`: drop `waiting` entries older
than 5 minutes; `pairing` and the queue are untouched. -/
def Matchmaker.cleanupWaiting (m : Matchmaker) (now : Nat) : Matchmaker :=
  { m with waiting := m.waiting.filter fun p => ¬ 300 < now - p.2 }

/-- Embedding of `Matchmaker.GetPair`. -/
def Matchmaker.GetPair (m : Matchmaker) (uid : Nat) : Option Nat :=
  mapLookup uid m.pairing

/-- Embedding of `Matchmaker.RemovePair`: when paired, delete the partner's
entry and the user's entry. -/
def Matchmaker.RemovePair (m : Matchmaker) (uid : Nat) : Matchmaker :=
  match mapLookup uid m.pairing with
  | none => m
  | some p => { m with pairing := mapErase uid (mapErase p m.pairing) }

/-- States of the matchmaker reachable from `NewMatchmaker` through its
exported operations and the worker's tick actions. -/
inductive Reach : Matchmaker → Prop
  | init : Reach Matchmaker.init
  | enqueue (m uid now) : Reach m → Reach (m.Enqueue uid now).2
  | tryMatch (m) : Reach m → Reach m.tryMatch
  | cleanup (m now) : Reach m → Reach (m.cleanupWaiting now)
  | removePair (m uid) : Reach m → Reach (m.RemovePair uid)

/-- The spec's pairing-symmetry invariant: `pairs[a] = b ⇔ pairs[b] = a`. -/
def PairingSymmetric (m : Matchmaker) : Prop :=
  ∀ a b : Nat, mapLookup a m.pairing = some b ↔ mapLookup b m.pairing = some a

/-! ### Iteration helpers for the sequential boundary properties -/

/-- `n` sequential calls of `ConsumeOneTimePreKey` for the same user,
collecting each call's outcome. -/
def consumeSeq : Store → Nat → Nat → List (Except DBErr OneTimePreKey) × Store
  | s, _, 0 => ([], s)
  | s, uid, n + 1 =>
    let r := ConsumeOneTimePreKey s uid
    let rest := consumeSeq r.2 uid n
    (r.1 :: rest.1, rest.2)

/-- The successfully returned rows among a sequence of consume outcomes. -/
def okRows : List (Except DBErr OneTimePreKey) → List OneTimePreKey
  | [] => []
  | Except.ok r :: l => r :: okRows l
  | Except.error _ :: l => okRows l

/-- A row as it stood in the table before consumption flipped its flag. -/
def unconsumed (r : OneTimePreKey) : OneTimePreKey :=
  { r with used := false }

/-- Sequential `Enqueue` calls, collecting each call's admission result. -/
def enqueueSeq : Matchmaker → Nat → List Nat → List EnqueueResult × Matchmaker
  | m, _, [] => ([], m)
  | m, now, u :: us =>
    let r := m.Enqueue u now
    let rest := enqueueSeq r.2 now us
    (r.1 :: rest.1, rest.2)

/-! ### Concrete data used by the counterexamples and witnesses -/

/-- An Ed25519 oracle under which every well-formed verification succeeds
(as a genuine signature over the presented message would). -/
def edTrue : List Nat → List Nat → List Nat → Bool := fun _ _ _ => true

/-- An Ed25519 oracle under which verification fails (as a random signature
would). -/
def edFalse : List Nat → List Nat → List Nat → Bool := fun _ _ _ => false

/-- A 32-byte identity key (all `0x01`). -/
def k1 : List Nat := List.replicate 32 1

/-- A different 32-byte identity key (all `0x02`). -/
def k2 : List Nat := List.replicate 32 2

/-- A user whose identity key was bound to `k1` at verify-2fa time. -/
def exUser : User := { id := 7, identifier := "alice", identityPubKey := k1 }

/-- A store holding only that user. -/
def exStore : Store :=
  { users := [exUser], prekeys := [], oneTimePreKeys := [], devices := []
    nextId := 100 }

/-- A well-formed upload payload carrying the differing identity key `k2`. -/
def exPayload : UploadPayload :=
  { identityPub := some k2, signingPub := some k2
    signedPreKey := some (List.replicate 32 3)
    signedPreKeySig := some (List.replicate 64 4)
    oneTimePreKeys := [], deviceId := "dev-1"
    devicePubKey := some (List.replicate 32 5) }

/-- The same payload with a 31-byte signed pre-key public. -/
def exPayload31 : UploadPayload :=
  { exPayload with signedPreKey := some (List.replicate 31 9) }

/-- A current signed pre-key row for the example user. -/
def exPreKeyRow : PreKeyRow :=
  { userId := 7, keyId := "signed-prekey-v1", preKey := List.replicate 32 3
    signature := List.replicate 64 4, expiresAt := 5000, createdAt := 10 }

/-- A store where the example user has a signed pre-key but no unused
one-time pre-key. -/
def exStoreNoOtk : Store :=
  { users := [exUser], prekeys := [exPreKeyRow], oneTimePreKeys := []
    devices := [], nextId := 100 }

/-- The bundle body the handler produces for `exStoreNoOtk`: note the
`one_time_prekey` key is present with the empty value. -/
def exBundleBody : BundleResponse :=
  { userId := 7, identityPub := k1, signedPrekey := List.replicate 32 3
    signedPrekeySig := List.replicate 64 4, oneTimePrekey := some []
    devices := [] }

/-- The older of the example user's two unused one-time pre-keys. -/
def exOtkOld : OneTimePreKey :=
  { id := 22, userId := 7, preKey := [8], used := false, createdAt := 30 }

/-- A store where the example user also has two unused one-time pre-keys,
the older one listed second. -/
def exStoreOtk : Store :=
  { users := [exUser], prekeys := [exPreKeyRow]
    oneTimePreKeys :=
      [{ id := 21, userId := 7, preKey := [6], used := false, createdAt := 40 }
       , { id := 22, userId := 7, preKey := [8], used := false, createdAt := 30 }]
    devices := [], nextId := 100 }

/-- Two connections of the same user with distinct channels. -/
def exConn1 : Connection :=
  { connId := 10, userId := 1, deviceId := "d1", send := [] }

/-- The re-registering connection. -/
def exConn2 : Connection :=
  { connId := 11, userId := 1, deviceId := "d2", send := [] }

/-- A hub with the first connection registered. -/
def exHub : Hub := { connections := [(1, exConn1)], closed := [] }

/-- A connection whose outbound channel holds 256 envelopes (full). -/
def exConnFull : Connection :=
  { connId := 12, userId := 2, deviceId := "d3"
    send := List.replicate 256 [0] }

/-- A hub with the full connection registered. -/
def exHubFull : Hub := { connections := [(2, exConnFull)], closed := [] }

/-- The matchmaker state reached by: enqueue 1, enqueue 2, tick (pairing
1 with 2), enqueue 1 again, enqueue 3, tick (pairing 1 with 3). -/
def brokenState : Matchmaker :=
  (((((Matchmaker.init.Enqueue 1 0).2.Enqueue 2 0).2.tryMatch.Enqueue 1
      60).2.Enqueue 3 60).2).tryMatch

/-! ## Helper lemmas about the hub's connection map -/

theorem connLookup_connErase_ne (l : List (Nat × Connection)) (k uid : Nat)
    (h : uid ≠ k) :
    connLookup uid (connErase k l) = connLookup uid l := by
  induction l with
  | nil => rfl
  | cons a l ih =>
    simp only [connErase, connLookup]
    by_cases hk : a.1 = k
    · have hu : ¬ a.1 = uid := fun e => h (e ▸ hk)
      rw [if_pos hk, if_neg hu]
      exact ih
    · rw [if_neg hk]
      by_cases hu : a.1 = uid
      · simp only [connLookup]
        rw [if_pos hu, if_pos hu]
      · simp only [connLookup]
        rw [if_neg hu, if_neg hu]
        exact ih

theorem connLookup_connErase_self (l : List (Nat × Connection)) (uid : Nat) :
    connLookup uid (connErase uid l) = none := by
  induction l with
  | nil => rfl
  | cons a l ih =>
    simp only [connErase]
    by_cases hu : a.1 = uid
    · rw [if_pos hu]
      exact ih
    · rw [if_neg hu]
      simp only [connLookup]
      rw [if_neg hu]
      exact ih

theorem connLookup_map_update (l : List (Nat × Connection)) (uid : Nat)
    (g : Connection → Connection) :
    connLookup uid (l.map fun p => if p.1 = uid then (p.1, g p.2) else p)
      = (connLookup uid l).map g := by
  induction l with
  | nil => rfl
  | cons a l ih =>
    by_cases hu : a.1 = uid
    · simp [List.map_cons, hu, connLookup]
    · simp [List.map_cons, hu, connLookup, ih]

theorem Hub.lookup_Unregister_self (h : Hub) (uid : Nat) :
    (h.Unregister uid).lookup uid = none := by
  unfold Hub.Unregister
  cases hc : h.lookup uid with
  | none => exact hc
  | some c => simp [Hub.lookup, connLookup_connErase_self]

theorem Hub.SendTo_absent (h : Hub) (uid : Nat) (payload : List Nat)
    (hc : h.lookup uid = none) : h.SendTo uid payload = (false, h) := by
  unfold Hub.SendTo
  rw [hc]

theorem mem_connErase_ne (l : List (Nat × Connection)) (k : Nat) :
    ∀ p ∈ connErase k l, p.1 ≠ k := by
  induction l with
  | nil => intro p hp; cases hp
  | cons a l ih =>
    intro p hp
    simp only [connErase] at hp
    by_cases hk : a.1 = k
    · rw [if_pos hk] at hp
      exact ih p hp
    · rw [if_neg hk] at hp
      cases hp with
      | head => exact hk
      | tail _ hp => exact ih p hp

/-! ## Claim C6 -/

/-- Claim C6 (counterexample): with `exConn1` registered for user 1, a
re-registration of `exConn2` for the same user replaces the map entry but
closes nothing: the prior connection's outbound channel is not closed,
contradicting the claim that the prior's outbound sequence is closed before
the insert. -/
theorem hub_register_close_counterexample :
    exHub.lookup 1 = some exConn1 ∧
    (exHub.Register exConn2).lookup 1 = some exConn2 ∧
    (exHub.Register exConn2).closed = [] ∧
    exConn1.connId ∉ (exHub.Register exConn2).closed := by
  refine ⟨by decide, by decide, by decide, by decide⟩

/-- Claim C6 (amended): `Register(conn)` inserts `conn` into `connections`
under `conn.user_id`, overwriting any prior connection for that user
without closing its outbound sequence (no channel is closed and no other
user's entry changes); afterwards `connections` maps the user id to exactly
the new connection.  Closing happens only in `Unregister`. -/
theorem hub_register_overwrites_without_close (h : Hub) (c : Connection) :
    (h.Register c).lookup c.userId = some c ∧
    (h.Register c).closed = h.closed ∧
    (∀ uid, uid ≠ c.userId → (h.Register c).lookup uid = h.lookup uid) ∧
    (∀ p ∈ (h.Register c).connections, p.1 = c.userId → p = (c.userId, c)) := by
  refine ⟨?_, rfl, ?_, ?_⟩
  · simp [Hub.Register, Hub.lookup, connLookup]
  · intro uid hne
    simp only [Hub.Register, Hub.lookup, connLookup]
    rw [if_neg fun e => hne e.symm]
    exact connLookup_connErase_ne h.connections c.userId uid hne
  · intro p hp hfst
    simp only [Hub.Register] at hp
    cases hp with
    | head => rfl
    | tail _ hp =>
      exact absurd hfst (mem_connErase_ne h.connections c.userId p hp)

/-- Claim C6 witness: instantiation of the amended theorem at the example
hub, discharging the hypotheses. -/
theorem hub_register_overwrites_without_close_witness :
    (exHub.Register exConn2).lookup 2 = exHub.lookup 2 :=
  (hub_register_overwrites_without_close exHub exConn2).2.2.1 2 (by decide)

/-! ## Claim C7 -/

/-- Claim C7 (confirmed): `SendTo` is non-blocking (a total function of the
state) and returns true exactly when the envelope is enqueued on the
recipient's outbound sequence, which requires the recipient to be present
with room in its capacity-256 buffer; it returns false when the recipient
is absent; and on a full outbound it evicts the recipient via `Unregister`
(the Go code's `go h.Unregister(userID)`, modelled as completed), returns
false, and any subsequent `SendTo` to the same user returns false. -/
theorem hub_sendto_contract :
    (∀ (h : Hub) (uid : Nat) (payload : List Nat),
        (h.SendTo uid payload).1 = true ↔
          ∃ c, h.lookup uid = some c ∧ c.send.length < sendCap) ∧
    (∀ (h : Hub) (uid : Nat) (payload : List Nat),
        h.lookup uid = none → h.SendTo uid payload = (false, h)) ∧
    (∀ (h : Hub) (uid : Nat) (payload : List Nat) (c : Connection),
        h.lookup uid = some c → c.send.length < sendCap →
          (h.SendTo uid payload).1 = true ∧
          (h.SendTo uid payload).2.lookup uid
            = some { c with send := c.send ++ [payload] } ∧
          (h.SendTo uid payload).2.closed = h.closed) ∧
    (∀ (h : Hub) (uid : Nat) (payload : List Nat) (c : Connection),
        h.lookup uid = some c → sendCap ≤ c.send.length →
          h.SendTo uid payload = (false, h.Unregister uid) ∧
          (h.Unregister uid).lookup uid = none ∧
          ∀ payload2,
            (h.Unregister uid).SendTo uid payload2
              = (false, h.Unregister uid)) := by
  refine ⟨?_, ?_, ?_, ?_⟩
  · intro h uid payload
    cases hc : h.lookup uid with
    | none =>
      rw [Hub.SendTo_absent h uid payload hc]
      constructor
      · intro hfalse; cases hfalse
      · rintro ⟨c, hcc, _⟩
        cases hcc
    | some c =>
      by_cases hlt : c.send.length < sendCap
      · simp only [Hub.SendTo, hc, if_pos hlt]
        exact ⟨fun _ => ⟨c, rfl, hlt⟩, fun _ => by trivial⟩
      · simp only [Hub.SendTo, hc, if_neg hlt]
        constructor
        · intro hfalse; cases hfalse
        · rintro ⟨c2, hc2, hlt2⟩
          injection hc2 with e
          subst e
          exact absurd hlt2 hlt
  · intro h uid payload hc
    exact Hub.SendTo_absent h uid payload hc
  · intro h uid payload c hc hlt
    simp only [Hub.SendTo, hc, if_pos hlt]
    refine ⟨by trivial, ?_, by trivial⟩
    show connLookup uid _ = _
    rw [connLookup_map_update h.connections uid
      (fun x => { x with send := x.send ++ [payload] })]
    rw [show h.lookup uid = connLookup uid h.connections from rfl] at hc
    rw [hc]
    rfl
  · intro h uid payload c hc hge
    have hnlt : ¬ c.send.length < sendCap := not_lt.mpr hge
    have h1 : h.SendTo uid payload = (false, h.Unregister uid) := by
      simp only [Hub.SendTo, hc, if_neg hnlt]
    have h2 : (h.Unregister uid).lookup uid = none :=
      Hub.lookup_Unregister_self h uid
    exact ⟨h1, h2, fun payload2 =>
      Hub.SendTo_absent (h.Unregister uid) uid payload2 h2⟩

/-- Claim C7 witness: instantiation at concrete hubs — a successful enqueue
for user 1, and the eviction of user 2 whose outbound already holds 256
envelopes. -/
theorem hub_sendto_contract_witness :
    (exHub.SendTo 1 [5]).1 = true ∧
    exHubFull.SendTo 2 [5] = (false, exHubFull.Unregister 2) :=
  ⟨(hub_sendto_contract.2.2.1 exHub 1 [5] exConn1 (by decide) (by decide)).1,
   (hub_sendto_contract.2.2.2 exHubFull 2 [5] exConnFull (by decide)
     (by decide)).1⟩

/-! ## Helper lemmas about the upload handler -/

theorem VerifyEd25519_false_of_ed
    (ed : List Nat → List Nat → List Nat → Bool) (pub msg sig : List Nat)
    (h : ed pub msg sig = false) : VerifyEd25519 ed pub msg sig = false := by
  unfold VerifyEd25519
  split_ifs <;> simp [h]

theorem uploadHandler_sigFail
    (ed : List Nat → List Nat → List Nat → Bool) (userID now : Nat)
    (p : UploadPayload) (s : Store) (idk sk sg spk : List Nat)
    (hid : p.identityPub = some idk) (hlid : idk.length = 32)
    (hsk : p.signingPub = some sk) (hlsk : sk.length = 32)
    (hsg : p.signedPreKeySig = some sg) (hspk : p.signedPreKey = some spk)
    (hv : VerifyEd25519 ed sk spk sg = false) :
    PreKeysUploadHandler ed userID now p s =
      (UploadResponse.badRequest ("signature verification failed"),
       s.updateIdentityKey userID idk) := by
  unfold PreKeysUploadHandler
  rw [hid, hsk, hsg, hspk]
  simp [hlid, hlsk, hv]

theorem uploadHandler_users
    (ed : List Nat → List Nat → List Nat → Bool) (userID now : Nat)
    (p : UploadPayload) (s : Store) (idk sk : List Nat)
    (hid : p.identityPub = some idk) (hlid : idk.length = 32)
    (hsk : p.signingPub = some sk) (hlsk : sk.length = 32) :
    (PreKeysUploadHandler ed userID now p s).2.users
      = (s.updateIdentityKey userID idk).users := by
  unfold PreKeysUploadHandler
  rw [hid, hsk]
  rcases h1 : p.signedPreKeySig with _ | sg
  · simp [hlid, hlsk, h1]
  · rcases h2 : p.signedPreKey with _ | spk
    · simp [hlid, hlsk, h1, h2]
    · by_cases hv : VerifyEd25519 ed sk spk sg = false
      · simp [hlid, hlsk, h1, h2, hv]
      · rcases h3 : p.devicePubKey with _ | dp <;>
          simp [hlid, hlsk, h1, h2, h3, hv, StoreSignedPreKey,
            AddOneTimePreKeys]

theorem updateIdentityKey_bound (s : Store) (uid : Nat) (k : List Nat) :
    ∀ u ∈ (s.updateIdentityKey uid k).users, u.id = uid →
      u.identityPubKey = k := by
  intro u hu hid
  simp only [Store.updateIdentityKey, List.mem_map] at hu
  rcases hu with ⟨v, _, hv⟩
  by_cases h : v.id = uid
  · rw [if_pos h] at hv
    rw [← hv]
  · rw [if_neg h] at hv
    rw [← hv] at hid
    exact absurd hid h

/-! ## Claim C1 -/

/-- Claim C1 (counterexample): user 7's identity key is bound to `k1`, yet
an upload carrying the differing 32-byte key `k2` (with a signature the
Ed25519 check accepts, as a genuine signature would be) is not rejected —
no `IdentityConflict` response exists — and the stored identity key
changes to `k2`. -/
theorem upload_identity_conflict_counterexample :
    exUser.identityPubKey = k1 ∧ k2 ≠ k1 ∧
    (PreKeysUploadHandler edTrue 7 1000 exPayload exStore).1
      = UploadResponse.ok ∧
    (PreKeysUploadHandler edTrue 7 1000 exPayload exStore).2.users.map
      User.identityPubKey = [k2] := by
  refine ⟨by decide, by decide, by decide, by decide⟩

/-- Claim C1 (amended): the identity public key is not immutable.  Any
upload that passes the two leading base64/length checks — whatever the
signature verification outcome and whatever comes later — overwrites the
caller's stored `identity_public_key` with the request's `identity_pub`;
no `IdentityConflict` rejection exists in the upload path. -/
theorem upload_overwrites_bound_identity
    (ed : List Nat → List Nat → List Nat → Bool) (userID now : Nat)
    (p : UploadPayload) (s : Store) (idk sk : List Nat)
    (hid : p.identityPub = some idk) (hlid : idk.length = 32)
    (hsk : p.signingPub = some sk) (hlsk : sk.length = 32) :
    ∀ u ∈ (PreKeysUploadHandler ed userID now p s).2.users,
      u.id = userID → u.identityPubKey = idk := by
  rw [uploadHandler_users ed userID now p s idk sk hid hlid hsk hlsk]
  exact updateIdentityKey_bound s userID idk

/-- Claim C1 witness: the amended theorem instantiated at the concrete
upload that rebinds user 7's key from `k1` to `k2`, and at the user row the
handler leaves behind. -/
theorem upload_overwrites_bound_identity_witness :
    User.identityPubKey
      ({ id := 7, identifier := "alice", identityPubKey := k2 } : User)
      = k2 :=
  upload_overwrites_bound_identity edTrue 7 1000 exPayload exStore k2 k2
    (by decide) (by decide) (by decide) (by decide)
    ({ id := 7, identifier := "alice", identityPubKey := k2 } : User)
    (by decide) (by decide)

/-! ## Claim C3 -/

/-- Claim C3 (counterexample): an upload whose signature verification fails
(oracle false, as for a random signature) is rejected with the
`SignatureInvalid` message, yet the store has already been mutated: user
7's identity key was rebound from `k1` to `k2` before the verification
ran. -/
theorem upload_sigfail_mutation_counterexample :
    (PreKeysUploadHandler edFalse 7 1000 exPayload exStore).1
      = UploadResponse.badRequest ("signature verification failed") ∧
    (PreKeysUploadHandler edFalse 7 1000 exPayload exStore).2 ≠ exStore ∧
    (PreKeysUploadHandler edFalse 7 1000 exPayload exStore).2.users.map
      User.identityPubKey = [k2] := by
  refine ⟨by decide, by decide, by decide⟩

/-- Claim C3 (amended): upload validation is fail-fast except that the
identity-key bind (line 166) precedes the signature verification: a request
rejected with `SignatureInvalid` leaves the signed-pre-key, one-time
pre-key and device tables unchanged, but the caller's identity key has
already been rebound to the request's `identity_pub`. -/
theorem upload_sigfail_store_effects
    (ed : List Nat → List Nat → List Nat → Bool) (userID now : Nat)
    (p : UploadPayload) (s : Store) (idk sk sg spk : List Nat)
    (hid : p.identityPub = some idk) (hlid : idk.length = 32)
    (hsk : p.signingPub = some sk) (hlsk : sk.length = 32)
    (hsg : p.signedPreKeySig = some sg) (hspk : p.signedPreKey = some spk)
    (hv : VerifyEd25519 ed sk spk sg = false) :
    PreKeysUploadHandler ed userID now p s
      = (UploadResponse.badRequest ("signature verification failed"),
         s.updateIdentityKey userID idk) ∧
    (s.updateIdentityKey userID idk).prekeys = s.prekeys ∧
    (s.updateIdentityKey userID idk).oneTimePreKeys = s.oneTimePreKeys ∧
    (s.updateIdentityKey userID idk).devices = s.devices := by
  exact ⟨uploadHandler_sigFail ed userID now p s idk sk sg spk hid hlid hsk
    hlsk hsg hspk hv, rfl, rfl, rfl⟩

/-- Claim C3 witness: the amended theorem instantiated at the concrete
upload whose signature verification fails. -/
theorem upload_sigfail_store_effects_witness :
    PreKeysUploadHandler edFalse 7 1000 exPayload exStore
      = (UploadResponse.badRequest ("signature verification failed"),
         exStore.updateIdentityKey 7 k2) :=
  (upload_sigfail_store_effects edFalse 7 1000 exPayload exStore k2 k2
    (List.replicate 64 4) (List.replicate 32 3) (by decide) (by decide)
    (by decide) (by decide) (by decide) (by decide) (by decide)).1

/-! ## Claim C2 -/

/-- Claim C2 (counterexample): `VerifyEd25519` does not check the message
(pre-key) length.  Under an oracle that accepts (as Ed25519 does for a
genuine signature over a message of any length, 31 bytes included),
`VerifyEd25519` returns true on a 31-byte pre-key, where the spec's
`verify_signed_prekey` contract demands false; accordingly the upload
handler accepts a bundle whose signed pre-key public is 31 bytes and
inserts the row. -/
theorem verifyEd25519_message_length_counterexample :
    VerifyEd25519 edTrue (List.replicate 32 0) (List.replicate 31 1)
      (List.replicate 64 2) = true ∧
    verify_signed_prekey edTrue (List.replicate 32 0) (List.replicate 31 1)
      (List.replicate 64 2) = false ∧
    (PreKeysUploadHandler edTrue 7 1000 exPayload31 exStore).1
      = UploadResponse.ok ∧
    (PreKeysUploadHandler edTrue 7 1000 exPayload31 exStore).2.prekeys.map
      PreKeyRow.preKey = [List.replicate 31 9] := by
  refine ⟨by decide, by decide, by decide, by decide⟩

/-- Claim C2 (amended): `VerifyEd25519(identity_pub, prekey_pub, signature)`
returns true iff `identity_pub` is 32 bytes, `signature` is 64 bytes, and
the Ed25519 verification over the pre-key bytes succeeds — the pre-key
length is not constrained.  Any format failure in the public key or
signature yields false, and the function is total (never throws).  A
31-byte signed pre-key is rejected with `SignatureInvalid` and no row is
inserted exactly when its Ed25519 verification fails. -/
theorem verifyEd25519_contract_amended :
    (∀ (ed : List Nat → List Nat → List Nat → Bool) (pub msg sig : List Nat),
        VerifyEd25519 ed pub msg sig = true ↔
          pub.length = 32 ∧ sig.length = 64 ∧ ed pub msg sig = true) ∧
    (∀ (ed : List Nat → List Nat → List Nat → Bool) (pub msg sig : List Nat),
        pub.length ≠ 32 ∨ sig.length ≠ 64 →
          VerifyEd25519 ed pub msg sig = false) ∧
    (∀ (ed : List Nat → List Nat → List Nat → Bool) (userID now : Nat)
        (p : UploadPayload) (s : Store) (idk sk sg spk : List Nat),
        p.identityPub = some idk → idk.length = 32 →
        p.signingPub = some sk → sk.length = 32 →
        p.signedPreKeySig = some sg → p.signedPreKey = some spk →
        spk.length = 31 → ed sk spk sg = false →
          (PreKeysUploadHandler ed userID now p s).1
            = UploadResponse.badRequest ("signature verification failed") ∧
          (PreKeysUploadHandler ed userID now p s).2.prekeys = s.prekeys) := by
  refine ⟨?_, ?_, ?_⟩
  · intro ed pub msg sig
    unfold VerifyEd25519
    constructor
    · intro h
      by_cases h1 : pub.length = 32
      · by_cases h2 : sig.length = 64
        · rw [if_neg (fun hne => hne h1), if_neg (fun hne => hne h2)] at h
          exact ⟨h1, h2, h⟩
        · rw [if_neg (fun hne => hne h1), if_pos h2] at h
          cases h
      · rw [if_pos h1] at h
        cases h
    · rintro ⟨h1, h2, h3⟩
      rw [if_neg (fun hne => hne h1), if_neg (fun hne => hne h2)]
      exact h3
  · intro ed pub msg sig h
    unfold VerifyEd25519
    rcases h with h | h
    · rw [if_pos h]
    · by_cases h1 : pub.length ≠ 32
      · rw [if_pos h1]
      · rw [if_neg h1, if_pos h]
  · intro ed userID now p s idk sk sg spk hid hlid hsk hlsk hsg hspk _ hed
    have hv : VerifyEd25519 ed sk spk sg = false :=
      VerifyEd25519_false_of_ed ed sk spk sg hed
    have heq := uploadHandler_sigFail ed userID now p s idk sk sg spk hid
      hlid hsk hlsk hsg hspk hv
    rw [heq]
    exact ⟨rfl, rfl⟩

/-- Claim C2 witness: the amended contract instantiated — the
characterization at a concrete accepting input, and the rejection of a
31-byte signed pre-key whose verification fails. -/
theorem verifyEd25519_contract_amended_witness :
    VerifyEd25519 edTrue k1 (List.replicate 31 9) (List.replicate 64 4)
      = true ∧
    (PreKeysUploadHandler edFalse 7 1000 exPayload31 exStore).1
      = UploadResponse.badRequest ("signature verification failed") :=
  ⟨(verifyEd25519_contract_amended.1 edTrue k1 (List.replicate 31 9)
      (List.replicate 64 4)).mpr ⟨by decide, by decide, by decide⟩,
   (verifyEd25519_contract_amended.2.2 edFalse 7 1000 exPayload31 exStore
      k2 k2 (List.replicate 64 4) (List.replicate 31 9) (by decide)
      (by decide) (by decide) (by decide) (by decide) (by decide)
      (by decide) (by decide)).1⟩

/-! ## Helper lemmas about the matchmaker's maps -/

theorem mapLookup_mapErase_self (k : Nat) (l : List (Nat × Nat)) :
    mapLookup k (mapErase k l) = none := by
  induction l with
  | nil => rfl
  | cons a l ih =>
    simp only [mapErase]
    by_cases hk : a.1 = k
    · rw [if_pos hk]
      exact ih
    · rw [if_neg hk]
      simp only [mapLookup]
      rw [if_neg hk]
      exact ih

theorem mapLookup_mapErase_ne (k k' : Nat) (l : List (Nat × Nat))
    (h : k ≠ k') :
    mapLookup k (mapErase k' l) = mapLookup k l := by
  induction l with
  | nil => rfl
  | cons a l ih =>
    simp only [mapErase, mapLookup]
    by_cases hk : a.1 = k'
    · have hne : ¬ a.1 = k := fun e => h (e ▸ hk)
      rw [if_pos hk, if_neg hne]
      exact ih
    · rw [if_neg hk]
      simp only [mapLookup]
      by_cases ha : a.1 = k
      · rw [if_pos ha, if_pos ha]
      · rw [if_neg ha, if_neg ha]
        exact ih

theorem mapLookup_mapInsert_self (k v : Nat) (l : List (Nat × Nat)) :
    mapLookup k (mapInsert k v l) = some v := by
  simp [mapInsert, mapLookup]

theorem mapLookup_mapInsert_ne (k k' v : Nat) (l : List (Nat × Nat))
    (h : k ≠ k') :
    mapLookup k (mapInsert k' v l) = mapLookup k l := by
  simp only [mapInsert, mapLookup]
  rw [if_neg fun e => h e.symm]
  exact mapLookup_mapErase_ne k k' l h

/-! ## Claim C9 -/

theorem enqueueSeq_all_ok (now : Nat) :
    ∀ (us : List Nat) (m : Matchmaker),
      m.queue.length + us.length ≤ queueCap →
      (enqueueSeq m now us).1 = List.replicate us.length EnqueueResult.ok ∧
      (enqueueSeq m now us).2.queue = m.queue ++ us := by
  intro us
  induction us with
  | nil =>
    intro m _
    exact ⟨rfl, (List.append_nil _).symm⟩
  | cons u us ih =>
    intro m h
    have hlt : m.queue.length < queueCap := by
      simp only [List.length_cons] at h
      omega
    have he : m.Enqueue u now =
        (EnqueueResult.ok,
         { m with queue := m.queue ++ [u]
                  waiting := mapInsert u now m.waiting }) := by
      unfold Matchmaker.Enqueue
      rw [if_pos hlt]
    have h2 :
        ({ m with queue := m.queue ++ [u]
                  waiting := mapInsert u now m.waiting } :
          Matchmaker).queue.length + us.length ≤ queueCap := by
      simp only [List.length_append, List.length_cons, List.length_nil]
      simp only [List.length_cons] at h
      omega
    obtain ⟨ha, hb⟩ := ih _ h2
    simp only [enqueueSeq, he]
    constructor
    · rw [List.length_cons, List.replicate_succ]
      rw [ha]
    · rw [hb]
      simp [List.append_assoc]

/-- Claim C9 (confirmed): `Enqueue` is non-blocking admission on the
bounded queue of capacity 1000 (`make(chan uuid.UUID, 1000)`): starting
from an empty queue, each of the first 1000 consecutive enqueues succeeds,
and the 1001st returns `QueueFull` (the Go code's
`context.DeadlineExceeded`) leaving the matchmaker — in particular the
queue contents — unchanged. -/
theorem enqueue_bounded_admission (m0 : Matchmaker) (now : Nat)
    (us : List Nat) (uExtra : Nat)
    (h0 : m0.queue = []) (hlen : us.length = queueCap) :
    (enqueueSeq m0 now us).1 = List.replicate queueCap EnqueueResult.ok ∧
    (enqueueSeq m0 now us).2.queue = us ∧
    (enqueueSeq m0 now us).2.Enqueue uExtra now
      = (EnqueueResult.queueFull, (enqueueSeq m0 now us).2) := by
  have hbound : m0.queue.length + us.length ≤ queueCap := by
    rw [h0, hlen]
    simp
  obtain ⟨ha, hb⟩ := enqueueSeq_all_ok now us m0 hbound
  have hq : (enqueueSeq m0 now us).2.queue = us := by
    rw [hb, h0]
    rfl
  refine ⟨by rw [ha, hlen], hq, ?_⟩
  unfold Matchmaker.Enqueue
  rw [if_neg]
  rw [hq, hlen]
  omega

/-- Claim C9 witness: the theorem instantiated with the 1000 distinct user
ids `List.range 1000` enqueued from the fresh matchmaker. -/
theorem enqueue_bounded_admission_witness :
    (enqueueSeq Matchmaker.init 0 (List.range queueCap)).2.Enqueue 42 0
      = (EnqueueResult.queueFull,
         (enqueueSeq Matchmaker.init 0 (List.range queueCap)).2) :=
  (enqueue_bounded_admission Matchmaker.init 0 (List.range queueCap) 42 rfl
    (by simp)).2.2

/-! ## Claim C8 -/

/-- Claim C8 (counterexample): the symmetry invariant fails in a reachable
state.  Users 1 and 2 enqueue and are paired by a tick; user 1 — never
removed from `pairing` — enqueues again together with user 3, and the next
tick overwrites `pairing[1] = 3` while `pairing[2] = 1` persists: so
`pairs[2] = 1` holds but `pairs[1] = 3 ≠ 2`. -/
theorem pairing_symmetry_counterexample :
    Reach brokenState ∧
    mapLookup 2 brokenState.pairing = some 1 ∧
    mapLookup 1 brokenState.pairing = some 3 ∧
    ¬ PairingSymmetric brokenState := by
  refine ⟨?_, by decide, by decide, ?_⟩
  · exact Reach.tryMatch _ (Reach.enqueue _ 3 60 (Reach.enqueue _ 1 60
      (Reach.tryMatch _ (Reach.enqueue _ 2 0 (Reach.enqueue _ 1 0
        Reach.init)))))
  · intro hsym
    have h1 : mapLookup 1 brokenState.pairing = some 2 :=
      (hsym 2 1).mp (by decide)
    have h2 : mapLookup 1 brokenState.pairing = some 3 := by decide
    rw [h1] at h2
    injection h2 with e
    exact absurd e (by decide)

/-- Claim C8 (amended): `enqueue` and the waiter reaper never touch
`pairs`; `remove_pair` preserves the symmetry invariant; and the per-tick
pairing step preserves it provided the two users taken from the head of the
queue are not currently paired.  Without that proviso the invariant is not
preserved (an already-paired user who re-enqueues breaks it, as the
counterexample shows). -/
theorem pairing_symmetry_amended :
    (∀ (m : Matchmaker) (uid now : Nat),
        ((m.Enqueue uid now).2).pairing = m.pairing) ∧
    (∀ (m : Matchmaker) (now : Nat),
        (m.cleanupWaiting now).pairing = m.pairing) ∧
    (∀ (m : Matchmaker) (uid : Nat),
        PairingSymmetric m → PairingSymmetric (m.RemovePair uid)) ∧
    (∀ m : Matchmaker,
        (∀ a b rest, m.queue = a :: b :: rest →
            mapLookup a m.pairing = none ∧ mapLookup b m.pairing = none) →
        PairingSymmetric m → PairingSymmetric m.tryMatch) := by
  refine ⟨?_, ?_, ?_, ?_⟩
  · intro m uid now
    unfold Matchmaker.Enqueue
    split_ifs <;> rfl
  · intro m now
    rfl
  · intro m uid hs
    unfold Matchmaker.RemovePair
    cases hp : mapLookup uid m.pairing with
    | none => exact hs
    | some p =>
      have look : ∀ x, mapLookup x (mapErase uid (mapErase p m.pairing))
          = if x = uid then none
            else if x = p then none else mapLookup x m.pairing := by
        intro x
        by_cases hxu : x = uid
        · rw [if_pos hxu, hxu]
          exact mapLookup_mapErase_self uid _
        · rw [if_neg hxu, mapLookup_mapErase_ne x uid _ hxu]
          by_cases hxp : x = p
          · rw [if_pos hxp, hxp]
            exact mapLookup_mapErase_self p _
          · rw [if_neg hxp, mapLookup_mapErase_ne x p _ hxp]
      have hdir : ∀ a b : Nat,
          mapLookup a (mapErase uid (mapErase p m.pairing)) = some b →
          mapLookup b (mapErase uid (mapErase p m.pairing)) = some a := by
        intro a b hab
        rw [look a] at hab
        by_cases hau : a = uid
        · rw [if_pos hau] at hab; cases hab
        · rw [if_neg hau] at hab
          by_cases hap : a = p
          · rw [if_pos hap] at hab; cases hab
          · rw [if_neg hap] at hab
            rw [look b]
            have hba : mapLookup b m.pairing = some a := (hs a b).mp hab
            by_cases hbu : b = uid
            · exfalso
              rw [hbu] at hba
              rw [hp] at hba
              injection hba with e
              exact hap e.symm
            · rw [if_neg hbu]
              by_cases hbp : b = p
              · exfalso
                have hpu : mapLookup p m.pairing = some uid :=
                  (hs uid p).mp hp
                rw [hbp] at hba
                rw [hpu] at hba
                injection hba with e
                exact hau e.symm
              · rw [if_neg hbp]
                exact hba
      intro a b
      exact ⟨hdir a b, hdir b a⟩
  · intro m hfresh hs
    rcases hq : m.queue with _ | ⟨a, _ | ⟨b, rest⟩⟩
    · unfold Matchmaker.tryMatch
      rw [hq]
      exact hs
    · unfold Matchmaker.tryMatch
      rw [hq]
      exact hs
    · obtain ⟨ha, hb⟩ := hfresh a b rest hq
      unfold Matchmaker.tryMatch
      rw [hq]
      have look : ∀ x, mapLookup x (mapInsert b a (mapInsert a b m.pairing))
          = if x = b then some a
            else if x = a then some b else mapLookup x m.pairing := by
        intro x
        by_cases hxb : x = b
        · rw [if_pos hxb, hxb]
          exact mapLookup_mapInsert_self b a _
        · rw [if_neg hxb, mapLookup_mapInsert_ne x b a _ hxb]
          by_cases hxa : x = a
          · rw [if_pos hxa, hxa]
            exact mapLookup_mapInsert_self a b _
          · rw [if_neg hxa, mapLookup_mapInsert_ne x a b _ hxa]
      have hdir : ∀ x y : Nat,
          mapLookup x (mapInsert b a (mapInsert a b m.pairing)) = some y →
          mapLookup y (mapInsert b a (mapInsert a b m.pairing)) = some x := by
        intro x y hxy
        rw [look x] at hxy
        rw [look y]
        by_cases hxb : x = b
        · rw [if_pos hxb] at hxy
          injection hxy with e
          subst e
          by_cases hab : a = b
          · rw [if_pos hab, hxb, hab]
          · rw [if_neg hab, if_pos rfl, hxb]
        · rw [if_neg hxb] at hxy
          by_cases hxa : x = a
          · rw [if_pos hxa] at hxy
            injection hxy with e
            subst e
            rw [if_pos rfl, hxa]
          · rw [if_neg hxa] at hxy
            have hyx : mapLookup y m.pairing = some x := (hs x y).mp hxy
            by_cases hyb : y = b
            · exfalso
              rw [hyb] at hxy
              have : mapLookup b m.pairing = some x := (hs x b).mp hxy
              rw [hb] at this
              cases this
            · rw [if_neg hyb]
              by_cases hya : y = a
              · exfalso
                rw [hya] at hxy
                have : mapLookup a m.pairing = some x := (hs x a).mp hxy
                rw [ha] at this
                cases this
              · rw [if_neg hya]
                exact hyx
      intro x y
      exact ⟨hdir x y, hdir y x⟩

/-! ## Helper lemmas about one-time pre-key consumption -/

theorem mem_unusedOf (uid : Nat) (rows : List OneTimePreKey)
    (r : OneTimePreKey) :
    r ∈ unusedOf uid rows ↔ r ∈ rows ∧ r.userId = uid ∧ r.used = false := by
  induction rows with
  | nil => simp [unusedOf]
  | cons a rows ih =>
    simp only [unusedOf]
    by_cases hc : a.userId = uid ∧ a.used = false
    · rw [if_pos hc]
      constructor
      · intro h
        rcases List.mem_cons.mp h with h | h
        · subst h
          exact ⟨List.mem_cons_self _ _, hc.1, hc.2⟩
        · obtain ⟨h1, h2⟩ := ih.mp h
          exact ⟨List.mem_cons_of_mem _ h1, h2⟩
      · rintro ⟨hmem, hu, hs⟩
        rcases List.mem_cons.mp hmem with h | h
        · subst h
          exact List.mem_cons_self _ _
        · exact List.mem_cons_of_mem _ (ih.mpr ⟨h, hu, hs⟩)
    · rw [if_neg hc]
      constructor
      · intro h
        obtain ⟨h1, h2⟩ := ih.mp h
        exact ⟨List.mem_cons_of_mem _ h1, h2⟩
      · rintro ⟨hmem, hu, hs⟩
        rcases List.mem_cons.mp hmem with h | h
        · subst h
          exact absurd ⟨hu, hs⟩ hc
        · exact ih.mpr ⟨h, hu, hs⟩

theorem oldestUnused_eq_none (uid : Nat) (rows : List OneTimePreKey) :
    oldestUnused uid rows = none ↔ unusedOf uid rows = [] := by
  induction rows with
  | nil => exact ⟨fun _ => rfl, fun _ => rfl⟩
  | cons a rows ih =>
    simp only [oldestUnused, unusedOf]
    by_cases hc : a.userId = uid ∧ a.used = false
    · rw [if_pos hc, if_pos hc]
      constructor
      · intro h
        cases h
      · intro h
        cases h
    · rw [if_neg hc, if_neg hc]
      exact ih

theorem oldestUnused_spec (uid : Nat) (rows : List OneTimePreKey)
    (p : OneTimePreKey) (h : oldestUnused uid rows = some p) :
    p ∈ unusedOf uid rows ∧
    ∀ r ∈ unusedOf uid rows, p.createdAt ≤ r.createdAt := by
  induction rows generalizing p with
  | nil => cases h
  | cons a rows ih =>
    simp only [oldestUnused] at h
    simp only [unusedOf]
    by_cases hc : a.userId = uid ∧ a.used = false
    · rw [if_pos hc] at h
      rw [if_pos hc]
      injection h with e
      cases hrest : oldestUnused uid rows with
      | none =>
        rw [hrest] at e
        simp only [minByCreated] at e
        subst e
        have hempty : unusedOf uid rows = [] :=
          (oldestUnused_eq_none uid rows).mp hrest
        refine ⟨List.mem_cons_self _ _, ?_⟩
        intro r hr
        rcases List.mem_cons.mp hr with hr | hr
        · rw [hr]
        · rw [hempty] at hr
          cases hr
      | some b =>
        rw [hrest] at e
        simp only [minByCreated] at e
        obtain ⟨hbmem, hbmin⟩ := ih b hrest
        by_cases hlt : b.createdAt < a.createdAt
        · rw [if_pos hlt] at e
          subst e
          refine ⟨List.mem_cons_of_mem _ hbmem, ?_⟩
          intro r hr
          rcases List.mem_cons.mp hr with hr | hr
          · rw [hr]
            exact le_of_lt hlt
          · exact hbmin r hr
        · rw [if_neg hlt] at e
          subst e
          refine ⟨List.mem_cons_self _ _, ?_⟩
          intro r hr
          rcases List.mem_cons.mp hr with hr | hr
          · rw [hr]
          · exact le_trans (le_of_not_lt hlt) (hbmin r hr)
    · rw [if_neg hc] at h
      rw [if_neg hc]
      exact ih p h

theorem unusedOf_markUsed (uid pid : Nat) (rows : List OneTimePreKey) :
    unusedOf uid (markUsed rows pid) = dropId pid (unusedOf uid rows) := by
  induction rows with
  | nil => rfl
  | cons a rows ih =>
    simp only [markUsed, unusedOf]
    by_cases hid : a.id = pid
    · rw [if_pos hid]
      by_cases hc : a.userId = uid ∧ a.used = false
      · rw [if_pos hc]
        have hc2 : ¬ (a.userId = uid ∧ (true : Bool) = false) := by
          rintro ⟨_, habs⟩
          cases habs
        rw [if_neg hc2]
        simp only [dropId]
        rw [if_pos hid]
        exact ih
      · rw [if_neg hc]
        have hc2 : ¬ (a.userId = uid ∧ (true : Bool) = false) := by
          rintro ⟨_, habs⟩
          cases habs
        rw [if_neg hc2]
        exact ih
    · rw [if_neg hid]
      by_cases hc : a.userId = uid ∧ a.used = false
      · rw [if_pos hc, if_pos hc]
        simp only [dropId]
        rw [if_neg hid, ih]
      · rw [if_neg hc, if_neg hc]
        exact ih

theorem markUsed_ids (rows : List OneTimePreKey) (pid : Nat) :
    (markUsed rows pid).map OneTimePreKey.id = rows.map OneTimePreKey.id := by
  induction rows with
  | nil => rfl
  | cons a rows ih =>
    simp only [markUsed, List.map_cons]
    by_cases hid : a.id = pid
    · rw [if_pos hid, ih]
    · rw [if_neg hid, ih]

theorem mem_dropId (pid : Nat) (l : List OneTimePreKey) (r : OneTimePreKey) :
    r ∈ dropId pid l ↔ r ∈ l ∧ ¬ r.id = pid := by
  induction l with
  | nil => simp [dropId]
  | cons a l ih =>
    simp only [dropId]
    by_cases hid : a.id = pid
    · rw [if_pos hid]
      constructor
      · intro h
        obtain ⟨h1, h2⟩ := ih.mp h
        exact ⟨List.mem_cons_of_mem _ h1, h2⟩
      · rintro ⟨hmem, hne⟩
        rcases List.mem_cons.mp hmem with h | h
        · exact absurd (h ▸ hid) hne
        · exact ih.mpr ⟨h, hne⟩
    · rw [if_neg hid]
      constructor
      · intro h
        rcases List.mem_cons.mp h with h | h
        · subst h
          exact ⟨List.mem_cons_self _ _, hid⟩
        · obtain ⟨h1, h2⟩ := ih.mp h
          exact ⟨List.mem_cons_of_mem _ h1, h2⟩
      · rintro ⟨hmem, hne⟩
        rcases List.mem_cons.mp hmem with h | h
        · subst h
          exact List.mem_cons_self _ _
        · exact List.mem_cons_of_mem _ (ih.mpr ⟨h, hne⟩)

theorem dropId_eq_self_of_not_mem (k : Nat) :
    ∀ l : List OneTimePreKey, k ∉ l.map OneTimePreKey.id → dropId k l = l := by
  intro l
  induction l with
  | nil => intro _; rfl
  | cons b l ih =>
    intro hnot
    rw [List.map_cons] at hnot
    simp only [dropId]
    have hbne : ¬ b.id = k := by
      intro e
      exact hnot (e ▸ List.mem_cons_self _ _)
    rw [if_neg hbne]
    rw [ih fun hmem => hnot (List.mem_cons_of_mem _ hmem)]

theorem perm_cons_dropId_of_nodup_ids :
    ∀ (l : List OneTimePreKey) (p : OneTimePreKey),
      (l.map OneTimePreKey.id).Nodup → p ∈ l →
      l.Perm (p :: dropId p.id l) := by
  intro l
  induction l with
  | nil =>
    intro p _ hp
    cases hp
  | cons a l ih =>
    intro p hnd hp
    rw [List.map_cons, List.nodup_cons] at hnd
    obtain ⟨hnotin, hnd2⟩ := hnd
    cases hp with
    | head =>
      have h1 : dropId a.id (a :: l) = l := by
        simp only [dropId, if_true]
        exact dropId_eq_self_of_not_mem a.id l hnotin
      rw [h1]
    | tail _ hp =>
      have hne : ¬ a.id = p.id := by
        intro e
        have : p.id ∈ l.map OneTimePreKey.id := List.mem_map_of_mem _ hp
        exact hnotin (e ▸ this)
      have h1 : dropId p.id (a :: l) = a :: dropId p.id l := by
        simp only [dropId]
        rw [if_neg hne]
      rw [h1]
      have step := ih p hnd2 hp
      exact (step.cons a).trans (List.Perm.swap p a (dropId p.id l))

theorem used_false_eta (p : OneTimePreKey) (h : p.used = false) :
    ({ p with used := false } : OneTimePreKey) = p := by
  cases p
  simp only at h
  rw [h]

theorem unusedOf_sublist (uid : Nat) (rows : List OneTimePreKey) :
    (unusedOf uid rows).Sublist rows := by
  induction rows with
  | nil => exact List.Sublist.refl _
  | cons a rows ih =>
    simp only [unusedOf]
    by_cases hc : a.userId = uid ∧ a.used = false
    · rw [if_pos hc]
      exact ih.cons₂ a
    · rw [if_neg hc]
      exact ih.cons a

theorem unusedRows_ids_nodup (uid : Nat) (s : Store)
    (hnd : (s.oneTimePreKeys.map OneTimePreKey.id).Nodup) :
    ((unusedRows uid s).map OneTimePreKey.id).Nodup :=
  hnd.sublist ((unusedOf_sublist uid s.oneTimePreKeys).map OneTimePreKey.id)

theorem consume_none (s : Store) (uid : Nat)
    (h : oldestUnused uid s.oneTimePreKeys = none) :
    ConsumeOneTimePreKey s uid = (Except.error DBErr.recordNotFound, s) := by
  unfold ConsumeOneTimePreKey
  rw [h]

theorem consume_some (s : Store) (uid : Nat) (p : OneTimePreKey)
    (h : oldestUnused uid s.oneTimePreKeys = some p) :
    ConsumeOneTimePreKey s uid
      = (Except.ok { p with used := true },
         { s with oneTimePreKeys := markUsed s.oneTimePreKeys p.id }) := by
  unfold ConsumeOneTimePreKey
  rw [h]

/-! ## Claim C4 -/

/-- Claim C4 (confirmed): for a user with exactly `K` unused one-time
pre-key rows (under the table's primary-key uniqueness), `K + 1` sequential
calls of `ConsumeOneTimePreKey` return rows for the first `K` calls and the
store's not-found error for the `(K+1)`th; the rows returned are exactly
the `K` unused rows (as they stood, up to the flipped `used` flag), in
`created_at` ascending order, and no row is observed by more than one call
(the returned primary keys are pairwise distinct). -/
theorem consume_one_time_prekeys_in_order (uid : Nat) :
    ∀ (K : Nat) (s : Store),
      (s.oneTimePreKeys.map OneTimePreKey.id).Nodup →
      (unusedRows uid s).length = K →
      (consumeSeq s uid (K + 1)).1
        = (okRows (consumeSeq s uid (K + 1)).1).map Except.ok
            ++ [Except.error DBErr.recordNotFound] ∧
      ((okRows (consumeSeq s uid (K + 1)).1).map unconsumed).Perm
        (unusedRows uid s) ∧
      List.Pairwise (fun a b => a.createdAt ≤ b.createdAt)
        (okRows (consumeSeq s uid (K + 1)).1) ∧
      ((okRows (consumeSeq s uid (K + 1)).1).map OneTimePreKey.id).Nodup := by
  intro K
  induction K with
  | zero =>
    intro s _ hlen
    have hempty : unusedRows uid s = [] := List.length_eq_zero.mp hlen
    have hnone : oldestUnused uid s.oneTimePreKeys = none :=
      (oldestUnused_eq_none uid s.oneTimePreKeys).mpr hempty
    have h1 : consumeSeq s uid 1 = ([Except.error DBErr.recordNotFound], s) := by
      simp only [consumeSeq, consume_none s uid hnone]
    rw [h1]
    refine ⟨rfl, ?_, List.Pairwise.nil, List.nodup_nil⟩
    rw [hempty]
    exact List.Perm.nil
  | succ K ih =>
    intro s hnd hlen
    cases hold : oldestUnused uid s.oneTimePreKeys with
    | none =>
      exfalso
      have hempty : unusedOf uid s.oneTimePreKeys = [] :=
        (oldestUnused_eq_none uid s.oneTimePreKeys).mp hold
      rw [show unusedRows uid s = unusedOf uid s.oneTimePreKeys from rfl,
        hempty] at hlen
      cases hlen
    | some p =>
      obtain ⟨hpmem, hpmin⟩ := oldestUnused_spec uid s.oneTimePreKeys p hold
      have hpused : p.used = false :=
        ((mem_unusedOf uid s.oneTimePreKeys p).mp hpmem).2.2
      have hunused2 :
          unusedRows uid
              { s with oneTimePreKeys := markUsed s.oneTimePreKeys p.id }
            = dropId p.id (unusedRows uid s) :=
        unusedOf_markUsed uid p.id s.oneTimePreKeys
      have hperm : (unusedRows uid s).Perm
          (p :: dropId p.id (unusedRows uid s)) :=
        perm_cons_dropId_of_nodup_ids (unusedRows uid s) p
          (unusedRows_ids_nodup uid s hnd) hpmem
      have hnd2 :
          (({ s with oneTimePreKeys := markUsed s.oneTimePreKeys p.id } :
              Store).oneTimePreKeys.map OneTimePreKey.id).Nodup := by
        rw [show ({ s with
            oneTimePreKeys := markUsed s.oneTimePreKeys p.id } :
              Store).oneTimePreKeys = markUsed s.oneTimePreKeys p.id from rfl]
        rw [markUsed_ids]
        exact hnd
      have hlen2 : (unusedRows uid { s with
          oneTimePreKeys := markUsed s.oneTimePreKeys p.id }).length = K := by
        have hl := hperm.length_eq
        rw [hlen] at hl
        simp only [List.length_cons] at hl
        rw [hunused2]
        omega
      obtain ⟨ih1, ih2, ih3, ih4⟩ :=
        ih { s with oneTimePreKeys := markUsed s.oneTimePreKeys p.id }
          hnd2 hlen2
      have hstep : (consumeSeq s uid (K + 1 + 1)).1
          = Except.ok { p with used := true } ::
              (consumeSeq
                { s with oneTimePreKeys := markUsed s.oneTimePreKeys p.id }
                uid (K + 1)).1 := by
        simp only [consumeSeq, consume_some s uid p hold]
      rw [hstep]
      have hok : okRows (Except.ok { p with used := true } ::
            (consumeSeq
              { s with oneTimePreKeys := markUsed s.oneTimePreKeys p.id }
              uid (K + 1)).1)
          = { p with used := true } ::
              okRows ((consumeSeq
                { s with oneTimePreKeys := markUsed s.oneTimePreKeys p.id }
                uid (K + 1)).1) := rfl
      rw [hok]
      have hunc : unconsumed { p with used := true } = p :=
        used_false_eta p hpused
      refine ⟨?_, ?_, ?_, ?_⟩
      · simp only [List.map_cons, List.cons_append]
        rw [← ih1]
      · simp only [List.map_cons]
        rw [hunc]
        exact (List.Perm.cons p (hunused2 ▸ ih2)).trans hperm.symm
      · refine List.Pairwise.cons ?_ ih3
        intro r hr
        have hrmem : unconsumed r ∈ dropId p.id (unusedRows uid s) := by
          rw [← hunused2]
          exact ih2.subset (List.mem_map_of_mem unconsumed hr)
        have hrin : unconsumed r ∈ unusedRows uid s :=
          ((mem_dropId p.id (unusedRows uid s) (unconsumed r)).mp hrmem).1
        exact hpmin (unconsumed r) hrin
      · refine List.nodup_cons.mpr ⟨?_, ih4⟩
        intro hmem
        rcases List.mem_map.mp hmem with ⟨r, hr, hid⟩
        have hrmem : unconsumed r ∈ dropId p.id (unusedRows uid s) := by
          rw [← hunused2]
          exact ih2.subset (List.mem_map_of_mem unconsumed hr)
        have hne :=
          ((mem_dropId p.id (unusedRows uid s) (unconsumed r)).mp hrmem).2
        exact hne hid

/-- Claim C4 witness: the theorem instantiated at a store where user 7 has
exactly two unused one-time pre-keys (ids 21 and 22, the older listed
second), so three sequential consumes return the two rows oldest-first and
then the not-found error. -/
theorem consume_one_time_prekeys_in_order_witness :
    (consumeSeq exStoreOtk 7 3).1
      = (okRows (consumeSeq exStoreOtk 7 3).1).map Except.ok
          ++ [Except.error DBErr.recordNotFound] ∧
    ((okRows (consumeSeq exStoreOtk 7 3).1).map unconsumed).Perm
      (unusedRows 7 exStoreOtk) ∧
    List.Pairwise (fun a b => a.createdAt ≤ b.createdAt)
      (okRows (consumeSeq exStoreOtk 7 3).1) ∧
    ((okRows (consumeSeq exStoreOtk 7 3).1).map OneTimePreKey.id).Nodup :=
  consume_one_time_prekeys_in_order 7 2 exStoreOtk (by decide) (by decide)

/-! ## Claim C5 -/

/-- Claim C5 (counterexample): with no unused one-time pre-key left for
user 7, the bundle fetch still succeeds (depletion is not an error) but the
response does not omit the `one_time_prekey` field — the `fiber.Map` always
carries the key, here with the empty-string value (`some []`), not absent
(`none`). -/
theorem get_bundle_empty_field_counterexample :
    GetKeyBundleHandler exStoreNoOtk 7
      = (BundleResult.ok exBundleBody, exStoreNoOtk) ∧
    exBundleBody.oneTimePrekey = some [] ∧
    exBundleBody.oneTimePrekey ≠ none ∧
    unusedRows 7 exStoreNoOtk = [] := by
  refine ⟨by decide, by decide, by decide, by decide⟩

/-- Claim C5 (amended): `get_bundle(target)` consumes exactly one unused
one-time pre-key of the target per successful fetch — the oldest unused row
is marked used and returned — and when none remains the fetch still
succeeds with the store unchanged, the response carrying the
`one_time_prekey` field with an empty value (the field is present but
empty, not omitted); depletion is not an error. -/
theorem get_bundle_consumption_amended (s : Store) (target : Nat) :
    (∀ u pk, s.users.find? (fun x => x.id == target) = some u →
        latestPreKey target s.prekeys = some pk →
        unusedRows target s = [] →
        GetKeyBundleHandler s target
          = (BundleResult.ok
              { userId := u.id, identityPub := u.identityPubKey
                signedPrekey := pk.preKey, signedPrekeySig := pk.signature
                oneTimePrekey := some []
                devices := (s.devices.filter fun d => d.userId == target).map
                  fun d => (d.deviceId, d.devicePubKey) },
             s)) ∧
    (∀ u pk p, s.users.find? (fun x => x.id == target) = some u →
        latestPreKey target s.prekeys = some pk →
        oldestUnused target s.oneTimePreKeys = some p →
        GetKeyBundleHandler s target
          = (BundleResult.ok
              { userId := u.id, identityPub := u.identityPubKey
                signedPrekey := pk.preKey, signedPrekeySig := pk.signature
                oneTimePrekey := some p.preKey
                devices := (s.devices.filter fun d => d.userId == target).map
                  fun d => (d.deviceId, d.devicePubKey) },
             { s with oneTimePreKeys := markUsed s.oneTimePreKeys p.id }) ∧
        p ∈ unusedRows target s ∧
        ((s.oneTimePreKeys.map OneTimePreKey.id).Nodup →
          (unusedRows target { s with
              oneTimePreKeys := markUsed s.oneTimePreKeys p.id }).length + 1
            = (unusedRows target s).length)) := by
  refine ⟨?_, ?_⟩
  · intro u pk hu hpk hempty
    have hnone : oldestUnused target s.oneTimePreKeys = none :=
      (oldestUnused_eq_none target s.oneTimePreKeys).mpr hempty
    simp only [GetKeyBundleHandler, GetKeyBundleWith, hu, hpk,
      consume_none s target hnone]
  · intro u pk p hu hpk hold
    refine ⟨?_, ?_, ?_⟩
    · simp only [GetKeyBundleHandler, GetKeyBundleWith, hu, hpk,
        consume_some s target p hold]
    · exact (oldestUnused_spec target s.oneTimePreKeys p hold).1
    · intro hnd
      have hperm := perm_cons_dropId_of_nodup_ids (unusedRows target s) p
        (unusedRows_ids_nodup target s hnd)
        (oldestUnused_spec target s.oneTimePreKeys p hold).1
      have hl := hperm.length_eq
      rw [show unusedRows target { s with
          oneTimePreKeys := markUsed s.oneTimePreKeys p.id }
        = dropId p.id (unusedRows target s) from
          unusedOf_markUsed target p.id s.oneTimePreKeys]
      simp only [List.length_cons] at hl
      omega

/-- Claim C5 witness: the amended theorem instantiated — the depleted fetch
for `exStoreNoOtk`, and the membership fact for the consumed oldest row of
`exStoreOtk`. -/
theorem get_bundle_consumption_amended_witness :
    (GetKeyBundleHandler exStoreNoOtk 7
      = (BundleResult.ok
          { userId := exUser.id, identityPub := exUser.identityPubKey
            signedPrekey := exPreKeyRow.preKey
            signedPrekeySig := exPreKeyRow.signature
            oneTimePrekey := some []
            devices := (exStoreNoOtk.devices.filter
              fun d => d.userId == 7).map
                fun d => (d.deviceId, d.devicePubKey) },
         exStoreNoOtk)) ∧
    exOtkOld ∈ unusedRows 7 exStoreOtk :=
  ⟨(get_bundle_consumption_amended exStoreNoOtk 7).1 exUser exPreKeyRow
      (by decide) (by decide) (by decide),
   ((get_bundle_consumption_amended exStoreOtk 7).2 exUser exPreKeyRow
      exOtkOld (by decide) (by decide) (by decide)).2.1⟩

/-! ## Claim C10 -/

/-- Claim C10 (confirmed): during a bundle fetch, any error outcome of the
one-time pre-key consumption step — the record-not-found of genuine
depletion or any other store failure, with any store side effect `f` — is
ignored: the handler still returns the 200 bundle with the
`one_time_prekey` value empty, and no 500 is surfaced from that step, so
callers cannot distinguish a consumption-path store failure from genuine
depletion. -/
theorem get_bundle_ignores_consume_errors
    (s : Store) (target : Nat) (e : DBErr)
    (f : Store → Nat → Store) (u : User) (pk : PreKeyRow)
    (hu : s.users.find? (fun x => x.id == target) = some u)
    (hpk : latestPreKey target s.prekeys = some pk) :
    GetKeyBundleWith (fun st t => (Except.error e, f st t)) s target
      = (BundleResult.ok
          { userId := u.id, identityPub := u.identityPubKey
            signedPrekey := pk.preKey, signedPrekeySig := pk.signature
            oneTimePrekey := some []
            devices := ((f s target).devices.filter
              fun d => d.userId == target).map
                fun d => (d.deviceId, d.devicePubKey) },
         f s target) := by
  simp only [GetKeyBundleWith, hu, hpk]

/-- Claim C10 witness: the theorem instantiated with an arbitrary
non-not-found store failure during consumption, leaving the store as is. -/
theorem get_bundle_ignores_consume_errors_witness :
    GetKeyBundleWith
        (fun st _ => (Except.error (DBErr.storeFailure 5), st))
        exStoreNoOtk 7
      = (BundleResult.ok
          { userId := exUser.id, identityPub := exUser.identityPubKey
            signedPrekey := exPreKeyRow.preKey
            signedPrekeySig := exPreKeyRow.signature
            oneTimePrekey := some []
            devices := (exStoreNoOtk.devices.filter
              fun d => d.userId == 7).map
                fun d => (d.deviceId, d.devicePubKey) },
         exStoreNoOtk) :=
  get_bundle_ignores_consume_errors exStoreNoOtk 7 (DBErr.storeFailure 5)
    (fun st _ => st) exUser exPreKeyRow (by decide) (by decide)

/-- Claim C8 witness: the amended preservation statements instantiated —
`remove_pair` on the fresh matchmaker, and a tick that pairs the two fresh
waiters 4 and 5. -/
theorem pairing_symmetry_amended_witness :
    PairingSymmetric (Matchmaker.init.RemovePair 5) ∧
    PairingSymmetric
      (Matchmaker.tryMatch { queue := [4, 5], pairing := [], waiting := [] }) :=
  ⟨pairing_symmetry_amended.2.2.1 Matchmaker.init 5
      (fun a b => by simp [Matchmaker.init, mapLookup]),
   pairing_symmetry_amended.2.2.2
      { queue := [4, 5], pairing := [], waiting := [] }
      (fun a b rest h => by
        injection h with h1 h2
        injection h2 with h3 h4
        subst h1
        subst h3
        exact ⟨rfl, rfl⟩)
      (fun a b => by simp [mapLookup])⟩

end SecureChat
